import Mathlib

/-!
Shallow embedding of the matching / reconciliation core of the
Trakt-to-Emby synchronizer (`sync_Trakt_to_emby.py`).

Modelling conventions, applied uniformly:
* Python strings are modelled as `List Char` (`Str`); string literals of the
  source appear as explicit character lists.
* Python truthiness is modelled explicitly: a string is truthy iff nonempty,
  an integer is truthy iff nonzero, `None` is falsy; dictionary fields that
  may be absent are `Option` fields (an absent key and an empty dict are
  both `none`).
* `datetime.now().isoformat()` is modelled by a `now : Str` parameter.
* File persistence (`save_*` functions) is modelled by returning the new
  in-memory state; HTTP collaborators are modelled as oracle parameters.
* Fractional match scores (Python floats `0.9`, `0.6`, `len/max`) are
  modelled as exact rationals.
-/

abbrev Str := List Char

/-- Python `\s` / `str.split()` whitespace (ASCII range): space, tab,
newline, carriage return, vertical tab, form feed. -/
def isSpaceChar (c : Char) : Bool :=
  c = ' ' ∨ c = '\t' ∨ c = '\n' ∨ c = '\r' ∨ c = Char.ofNat 11 ∨ c = Char.ofNat 12

/-- Python regex `\w` (ASCII range): letters, digits, underscore. -/
def isWordChar (c : Char) : Bool :=
  c.isAlphanum ∨ c = '_'

/-- Truthiness of an optional Python string: present and nonempty. -/
def strTruthy : Option Str → Bool
  | none => false
  | some s => s ≠ ([] : Str)

/-- Truthiness of an optional Python integer: present and nonzero. -/
def intTruthy : Option Int → Bool
  | none => false
  | some n => n ≠ 0

/-- Python `str.lower()` on one character (ASCII range). -/
def charLower (c : Char) : Char :=
  if 65 ≤ c.toNat ∧ c.toNat ≤ 90 then Char.ofNat (c.toNat + 32) else c

/-- Python `str.lower()`. -/
def lowerStr (s : Str) : Str := s.map charLower

/-- Python `str.strip()`: remove leading and trailing whitespace. -/
def stripChars (s : Str) : Str :=
  ((s.dropWhile isSpaceChar).reverse.dropWhile isSpaceChar).reverse

/-- Python `str.split()` with no separator: split on whitespace runs,
dropping empty fields. -/
def splitWs (s : Str) : List Str :=
  match s with
  | [] => []
  | c :: cs =>
    if isSpaceChar c then splitWs cs
    else (c :: cs.takeWhile (fun d => !isSpaceChar d)) :: splitWs (cs.dropWhile (fun d => !isSpaceChar d))
termination_by s.length
decreasing_by
· simp
· have := (cs.dropWhile_suffix (fun d => !isSpaceChar d)).length_le
  simp
  omega

/-- Python `' '.join(ws)`. -/
def joinSp : List Str → Str
  | [] => []
  | [w] => w
  | w :: v :: ws => w ++ ' ' :: joinSp (v :: ws)

/-- Python `' '.join(s.split())`: collapse internal whitespace, trim. -/
def collapse (s : Str) : Str := joinSp (splitWs s)

/-- One attempt of the regex `\s*\(\d{4}\)\s*` anchored at the start of `s`:
a greedy whitespace run, a parenthesized run of exactly four digits, and a
trailing greedy whitespace run.  Returns the remainder after the match. -/
def tryYear (s : Str) : Option Str :=
  match s.dropWhile isSpaceChar with
  | a :: d1 :: d2 :: d3 :: d4 :: b :: rest =>
    if a = '(' ∧ b = ')' ∧ d1.isDigit ∧ d2.isDigit ∧ d3.isDigit ∧ d4.isDigit then
      some (rest.dropWhile isSpaceChar)
    else none
  | _ => none

theorem tryYear_length {s rest : Str} (h : tryYear s = some rest) :
    rest.length < s.length := by
  unfold tryYear at h
  split at h
  next a d1 d2 d3 d4 b r heq =>
    split at h
    · have h1 := (s.dropWhile_suffix isSpaceChar).length_le
      have h2 := (r.dropWhile_suffix isSpaceChar).length_le
      rw [heq] at h1
      simp at h1
      cases h
      omega
    · exact absurd h (by simp)
  next => exact absurd h (by simp)

theorem tryYear_sublist {s rest : Str} (h : tryYear s = some rest) :
    rest.Sublist s := by
  unfold tryYear at h
  split at h
  next a d1 d2 d3 d4 b r heq =>
    split at h
    · cases h
      have h1 : (s.dropWhile isSpaceChar).Sublist s := (s.dropWhile_suffix isSpaceChar).sublist
      rw [heq] at h1
      have h2 : (r.dropWhile isSpaceChar).Sublist r := (r.dropWhile_suffix isSpaceChar).sublist
      have h3 : r.Sublist (a :: d1 :: d2 :: d3 :: d4 :: b :: r) :=
        ((((((List.Sublist.refl r).cons b).cons d4).cons d3).cons d2).cons d1).cons a
      exact h2.trans (h3.trans h1)
    · exact absurd h (by simp)
  next => exact absurd h (by simp)

/-- Python `re.sub(r'\s*\(\d{4}\)\s*', '', s)`: scan left to right, deleting
every occurrence of the pattern. -/
def subYear (s : Str) : Str :=
  match s with
  | [] => []
  | c :: cs =>
    match h : tryYear (c :: cs) with
    | some rest => subYear rest
    | none => c :: subYear cs
termination_by s.length
decreasing_by
· exact tryYear_length h
· simp

/-- Python `re.sub(r'[^\w\s]', '', s)`: keep only word characters and
whitespace. -/
def subPunct (s : Str) : Str :=
  s.filter (fun c => isWordChar c || isSpaceChar c)

/-- One attempt of the regex `^(the|a|an)\s+` (alternatives tried left to
right, `\s+` greedy): returns the remainder after the stripped prefix. -/
def tryArticle : Str → Option Str
  | 't' :: 'h' :: 'e' :: c :: rest =>
    if isSpaceChar c then some (rest.dropWhile isSpaceChar) else none
  | 'a' :: c :: rest =>
    if isSpaceChar c then some (rest.dropWhile isSpaceChar)
    else
      match c, rest with
      | 'n', d :: rest2 =>
        if isSpaceChar d then some (rest2.dropWhile isSpaceChar) else none
      | _, _ => none
  | _ => none

/-- Python `re.sub(r'^(the|a|an)\s+', '', s)` (anchored: at most one
replacement). -/
def stripArticle (s : Str) : Str :=
  match tryArticle s with
  | some rest => rest
  | none => s

/-- One attempt of the regex `^marvel\'?s\s+`. -/
def tryMarvels : Str → Option Str
  | 'm' :: 'a' :: 'r' :: 'v' :: 'e' :: 'l' :: rest =>
    match rest with
    | '\'' :: 's' :: c :: r2 =>
      if isSpaceChar c then some (r2.dropWhile isSpaceChar) else none
    | 's' :: c :: r2 =>
      if isSpaceChar c then some (r2.dropWhile isSpaceChar) else none
    | _ => none
  | _ => none

/-- Python `re.sub(r'^marvel\'?s\s+', '', s)` (anchored). -/
def stripMarvels (s : Str) : Str :=
  match tryMarvels s with
  | some rest => rest
  | none => s

/-- `normalize_title` from `sync_Trakt_to_emby.py` (lines 930-944): lowercase,
remove a parenthesized four-digit year, remove characters that are neither
word characters nor whitespace, remove one leading article, remove a leading
"marvel's" prefix, collapse whitespace. -/
def normalize_title (title : Str) : Str :=
  collapse (stripMarvels (stripArticle (subPunct (subYear (lowerStr title)))))

/-! ## Data model -/

/-- External provider ids of a Trakt entry (the `ids` dict).  Values are
modelled as strings; an absent key is `none`. -/
structure PIds where
  imdb : Option Str
  tmdb : Option Str
  trakt : Option Str
  tvdb : Option Str
deriving DecidableEq

def emptyPIds : PIds := ⟨none, none, none, none⟩

/-- One item of the Emby library snapshot, as consumed by the matcher:
`Id`, `Name`, `ProductionYear`, `ProviderIds.{Imdb,Tmdb,Tvdb}`, `Path`. -/
structure LibraryItem where
  Id : Str
  Name : Str
  ProductionYear : Option Int
  Imdb : Option Str
  Tmdb : Option Str
  Tvdb : Option Str
  Path : Option Str
deriving DecidableEq

/-- One value of the `_emby_id_mapping` table. -/
structure MapRecord where
  emby_id : Str
  type : Str
  title : Str
  last_updated : Str
deriving DecidableEq

/-- The `_emby_id_mapping` dict, as an association list with
replace-on-insert semantics. -/
abbrev MappingStore := List (Str × MapRecord)

def movieStr : Str := ['m', 'o', 'v', 'i', 'e']
def showStr : Str := ['s', 'h', 'o', 'w']

/-- The mapping key `f"{item_type}_{trakt_id}"`. -/
def mappingKey (itemType traktId : Str) : Str := itemType ++ '_' :: traktId

def storeLookup (k : Str) : MappingStore → Option MapRecord
  | [] => none
  | (k', v) :: rest => if k' = k then some v else storeLookup k rest

def storeInsert (k : Str) (v : MapRecord) (s : MappingStore) : MappingStore :=
  (k, v) :: s.filter (fun p => p.1 ≠ k)

/-- `add_emby_id_mapping` (lines 51-70): store a record under
`f"{item_type}_{trakt_id}"`, stamping `last_updated` with the current time. -/
def add_emby_id_mapping (now : Str) (traktId embyId itemType title : Str)
    (store : MappingStore) : MappingStore :=
  storeInsert (mappingKey itemType traktId) ⟨embyId, itemType, title, now⟩ store

/-- `get_emby_id_from_mapping` (lines 72-79). -/
def get_emby_id_from_mapping (store : MappingStore) (itemType traktId : Str) :
    Option Str :=
  match storeLookup (mappingKey itemType traktId) store with
  | some m => some m.emby_id
  | none => none

/-- Write-back helper shared by all successful match branches: store the
mapping when a (truthy) Trakt id is available, otherwise leave the store
unchanged. -/
def writeMap (store : MappingStore) (now : Str) (traktId : Option Str)
    (embyId itemType title : Str) : MappingStore :=
  match traktId with
  | some t => add_emby_id_mapping now t embyId itemType title store
  | none => store

/-! ## Fuzzy title matching (the shared final loop of `search_movie_in_emby`,
lines 1030-1072, and `search_tv_show_in_emby`, lines 1173-1215) -/

/-- Python substring test `needle in hay`. -/
def strContains (hay needle : Str) : Bool :=
  hay.tails.any (fun t => needle.isPrefixOf t)

/-- The year-window guard
`if year and item_year and abs(int(year) - int(item_year)) > 1: continue`.
Python truthiness makes a zero year skip the guard. -/
def skipYear (year itemYear : Option Int) : Bool :=
  match year, itemYear with
  | some y, some z => y ≠ 0 ∧ z ≠ 0 ∧ 1 < (y - z).natAbs
  | _, _ => false

/-- The per-item best-candidate update (steps 2 and 3 of the loop body:
substring containment at score 0.9, then word-overlap score, each taken
only when it beats the current best). -/
def fuzzyUpdate (nt : Str) (it : LibraryItem) (bm : Option LibraryItem) (bs : ℚ) :
    Option LibraryItem × ℚ :=
  let nit := normalize_title it.Name
  let p :=
    if (strContains nit nt || strContains nt nit) && (bm.isNone || decide ((9 : ℚ)/10 > bs)) then
      (some it, (9 : ℚ)/10)
    else (bm, bs)
  let tw := (splitWs nt).dedup
  let iw := (splitWs nit).dedup
  if tw ≠ [] ∧ iw ≠ [] then
    let o : ℚ := ((tw.filter (fun w => w ∈ iw)).length : ℚ) / (max tw.length iw.length : ℚ)
    if o > 3/5 ∧ o > p.2 then (some it, o) else p
  else p

/-- The fuzzy-fallback loop, carrying `best_match` and `best_score`;
an exact normalized-title equality breaks out with score 1.0. -/
def fuzzyLoop (nt : Str) (year : Option Int) :
    List LibraryItem → Option LibraryItem → ℚ → Option LibraryItem × ℚ
  | [], bm, bs => (bm, bs)
  | it :: rest, bm, bs =>
    if skipYear year it.ProductionYear then fuzzyLoop nt year rest bm bs
    else if nt = normalize_title it.Name then (some it, 1)
    else fuzzyLoop nt year rest (fuzzyUpdate nt it bm bs).1 (fuzzyUpdate nt it bm bs).2

/-- The whole fuzzy fallback: run the loop from `(None, 0)` and accept the
best candidate only at score `>= 0.6`. -/
def fuzzyResult (title : Str) (year : Option Int) (items : List LibraryItem) :
    Option LibraryItem :=
  match fuzzyLoop (normalize_title title) year items none 0 with
  | (some it, bs) => if bs ≥ 3/5 then some it else none
  | (none, _) => none

/-! ## Id-based matching steps of the search functions -/

/-- `extract_imdb_from_path` (lines 1915-1930): leftmost occurrence of the
regex `\[imdbid-(tt\d+)\]` in the path; the digit run is greedy and must be
followed by `]`. -/
def tryImdbTag : Str → Option Str
  | '[' :: 'i' :: 'm' :: 'd' :: 'b' :: 'i' :: 'd' :: '-' :: 't' :: 't' :: rest =>
    let ds := rest.takeWhile Char.isDigit
    match rest.dropWhile Char.isDigit with
    | ']' :: _ => if ds ≠ [] then some ('t' :: 't' :: ds) else none
    | _ => none
  | _ => none

def extract_imdb_from_path : Str → Option Str
  | [] => none
  | c :: cs =>
    match tryImdbTag (c :: cs) with
    | some tag => some tag
    | none => extract_imdb_from_path cs

/-- The IMDB scan shared by `search_movie_in_emby` (lines 982-1003) and
`search_tv_show_in_emby` (lines 1142-1163): per item, first the metadata
provider id, then the id embedded in the file path. -/
def imdbScanSearch (imdbId : Str) : List LibraryItem → Option Str
  | [] => none
  | it :: rest =>
    let e := stripChars (it.Imdb.getD [])
    if e ≠ [] ∧ e = imdbId then some it.Id
    else
      let p := it.Path.getD []
      if p ≠ [] then
        match extract_imdb_from_path p with
        | some pid => if pid = imdbId then some it.Id else imdbScanSearch imdbId rest
        | none => imdbScanSearch imdbId rest
      else imdbScanSearch imdbId rest

/-- The TMDB metadata scan (lines 1011-1020 / 1125-1134). -/
def tmdbScanSearch (tmdbId : Str) : List LibraryItem → Option Str
  | [] => none
  | it :: rest =>
    let e := stripChars (it.Tmdb.getD [])
    if e ≠ [] ∧ e = tmdbId then some it.Id else tmdbScanSearch tmdbId rest

/-- The TVDB metadata scan (lines 1108-1117). -/
def tvdbScanSearch (tvdbId : Str) : List LibraryItem → Option Str
  | [] => none
  | it :: rest =>
    let e := stripChars (it.Tvdb.getD [])
    if e ≠ [] ∧ e = tvdbId then some it.Id else tvdbScanSearch tvdbId rest

/-- The stored-mapping fast path of the search functions (lines 962-970 /
1088-1096): when the entry has a truthy Trakt id and the store holds a
truthy Emby id for it, return that id. -/
def searchFastPath (store : MappingStore) (itemType : Str) (pids : PIds) :
    Option Str :=
  match (if strTruthy pids.trakt then pids.trakt else none) with
  | some t =>
    match get_emby_id_from_mapping store itemType t with
    | some e => if e ≠ ([] : Str) then some e else none
    | none => none
  | none => none

/-- `search_movie_in_emby` (lines 956-1080), with the library fetch
abstracted as `fetchLib kind library_id` and the mapping store threaded
explicitly.  Returns the found Emby id (if any) and the updated store.
An absent or empty `provider_ids` dict returns immediately. -/
def movieKindStr : Str := ['M', 'o', 'v', 'i', 'e']

def seriesKindStr : Str := ['S', 'e', 'r', 'i', 'e', 's']

def search_movie_in_emby (fetchLib : Str → Option Str → List LibraryItem)
    (store : MappingStore) (now : Str) (title : Str) (year : Option Int)
    (provider_ids : Option PIds) (library_id : Option Str) :
    Option Str × MappingStore :=
  match provider_ids with
  | none => (none, store)
  | some pids =>
    let traktId : Option Str := if strTruthy pids.trakt then pids.trakt else none
    match searchFastPath store movieStr pids with
    | some e => (some e, store)
    | none =>
      let library_items := fetchLib movieKindStr library_id
      match (if strTruthy pids.imdb then imdbScanSearch (pids.imdb.getD []) library_items else none) with
      | some e => (some e, writeMap store now traktId e movieStr title)
      | none =>
        match (if strTruthy pids.tmdb then tmdbScanSearch (pids.tmdb.getD []) library_items else none) with
        | some e => (some e, writeMap store now traktId e movieStr title)
        | none =>
          match fuzzyResult title year library_items with
          | some it => (some it.Id, writeMap store now traktId it.Id movieStr title)
          | none => (none, store)

/-- `search_tv_show_in_emby` (lines 1082-1223): same shape, trying
TVDB, then TMDB, then IMDB (metadata and path), then the fuzzy fallback. -/
def search_tv_show_in_emby (fetchLib : Str → Option Str → List LibraryItem)
    (store : MappingStore) (now : Str) (title : Str) (year : Option Int)
    (provider_ids : Option PIds) (library_id : Option Str) :
    Option Str × MappingStore :=
  match provider_ids with
  | none => (none, store)
  | some pids =>
    let traktId : Option Str := if strTruthy pids.trakt then pids.trakt else none
    match searchFastPath store showStr pids with
    | some e => (some e, store)
    | none =>
      let library_items := fetchLib seriesKindStr library_id
      match (if strTruthy pids.tvdb then tvdbScanSearch (pids.tvdb.getD []) library_items else none) with
      | some e => (some e, writeMap store now traktId e showStr title)
      | none =>
        match (if strTruthy pids.tmdb then tmdbScanSearch (pids.tmdb.getD []) library_items else none) with
        | some e => (some e, writeMap store now traktId e showStr title)
        | none =>
          match (if strTruthy pids.imdb then imdbScanSearch (pids.imdb.getD []) library_items else none) with
          | some e => (some e, writeMap store now traktId e showStr title)
          | none =>
            match fuzzyResult title year library_items with
            | some it => (some it.Id, writeMap store now traktId it.Id showStr title)
            | none => (none, store)

/-! ## Unresolved / Ignored registries -/

/-- One collection-membership entry of an unresolved/ignored record. -/
structure CollInfo where
  name : Option Str
  library_id : Option Str
deriving DecidableEq

/-- One record of `_missing_items` / `_ignored_items`.  Keys that the code
may leave absent are `Option` fields; `collections` is `none` when the key
is absent (legacy shape keeps `collection_name`/`library_id` instead). -/
structure MissingItem where
  title : Str
  year : Option Int
  ids : PIds
  type : Str
  reason : Str
  last_checked : Str
  collections : Option (List CollInfo)
  collection_name : Option Str
  library_id : Option Str
  ignored_on : Option Str
  trakt_ids : Option PIds
deriving DecidableEq

def dfltMissingItem : MissingItem :=
  ⟨[], none, emptyPIds, [], [], [], none, none, none, none, none⟩

/-- The pair `(_missing_items, _ignored_items)`. -/
abbrev RegState := List MissingItem × List MissingItem

/-- Update the first list element satisfying `p` with `f` (the in-place
mutation of the first matching record found by a Python `for` loop). -/
def updFirst (p : MissingItem → Bool) (f : MissingItem → MissingItem) :
    List MissingItem → Option (List MissingItem)
  | [] => none
  | x :: xs =>
    if p x then some (f x :: xs)
    else
      match updFirst p f xs with
      | some ys => some (x :: ys)
      | none => none

/-- The ignored-list merge of `add_to_missing_items` (lines 402-418): ensure
the `collections` key, then append the collection if its name is not yet
present. -/
def mergeColl (cn lid : Option Str) (g : MissingItem) : MissingItem :=
  let colls := g.collections.getD []
  if colls.any (fun c => c.name = cn) then { g with collections := some colls }
  else { g with collections := some (colls ++ [⟨cn, lid⟩]) }

/-- The guard `if ignored_trakt_id and ignored_trakt_id == trakt_id` of the
ignored-list scan. -/
def tidMatches (traktId : Option Str) (g : MissingItem) : Bool :=
  strTruthy g.ids.trakt && g.ids.trakt = traktId

/-- The existing-missing-item update of `add_to_missing_items`
(lines 450-474): migrate the legacy single-collection shape, append the new
collection if absent, refresh `last_checked`. -/
def mergeMissing (cn lid : Option Str) (now : Str) (m : MissingItem) : MissingItem :=
  let colls0 :=
    match m.collections with
    | some cs => cs
    | none =>
      match m.collection_name with
      | some cn0 => [⟨some cn0, m.library_id⟩]
      | none => []
  let colls1 :=
    if colls0.any (fun c => c.name = cn) then colls0 else colls0 ++ [⟨cn, lid⟩]
  { m with collections := some colls1, last_checked := now }

/-- `add_to_missing_items` (lines 386-483).  Suppresses the add when the
entry's Trakt id is already in the ignored list (merging the collection
name there), merges into an existing missing record with the same Trakt id,
or appends a new record.  Returns the Python boolean result together with
the new `(missing, ignored)` state. -/
def add_to_missing_items (item_data_title : Str) (item_data_year : Option Int)
    (item_data_ids : PIds) (item_type : Str) (collection_name library_id : Option Str)
    (reason : Str) (now : Str) (s : RegState) : Bool × RegState :=
  let traktId := item_data_ids.trakt
  match updFirst (tidMatches traktId) (mergeColl collection_name library_id) s.2 with
  | some ignored' => (false, (s.1, ignored'))
  | none =>
    let predMissing : MissingItem → Bool := fun m =>
      strTruthy traktId && strTruthy m.ids.trakt && traktId = m.ids.trakt
    match updFirst predMissing (mergeMissing collection_name library_id now) s.1 with
    | some missing' => (true, (missing', s.2))
    | none =>
      let newItem : MissingItem :=
        { title := item_data_title, year := item_data_year, ids := item_data_ids,
          type := item_type, reason := reason, last_checked := now,
          collections := some [⟨collection_name, library_id⟩],
          collection_name := none, library_id := none,
          ignored_on := none, trakt_ids := none }
      (true, (s.1 ++ [newItem], s.2))

/-- The `item['ignored_on'] = datetime.now().isoformat()` stamp. -/
def stampIgnored (now : Str) (m : MissingItem) : MissingItem :=
  { m with ignored_on := some now }

/-- The unignore restoration: delete `ignored_on`, refresh `last_checked`. -/
def restoreItem (now : Str) (m : MissingItem) : MissingItem :=
  { m with ignored_on := none, last_checked := now }

/-- `ignore_missing_item` (lines 179-202): move one record from missing to
ignored, stamping `ignored_on`. -/
def ignore_missing_item (idx : Nat) (now : Str) (s : RegState) : Bool × RegState :=
  if idx < s.1.length then
    let item := s.1.getD idx dfltMissingItem
    (true, (s.1.eraseIdx idx, s.2 ++ [stampIgnored now item]))
  else (false, s)

/-- `unignore_item` (lines 204-231): move one record back from ignored to
missing, dropping `ignored_on` and refreshing `last_checked`. -/
def unignore_item (idx : Nat) (now : Str) (s : RegState) : Bool × RegState :=
  if idx < s.2.length then
    let item := s.2.getD idx dfltMissingItem
    (true, (s.1 ++ [restoreItem now item], s.2.eraseIdx idx))
  else (false, s)

/-- Python `sorted(indices, reverse=True)` (insertion sort, descending). -/
def insertDesc (n : Nat) : List Nat → List Nat
  | [] => [n]
  | m :: ms => if m ≤ n then n :: m :: ms else m :: insertDesc n ms

def sortDesc : List Nat → List Nat
  | [] => []
  | n :: ns => insertDesc n (sortDesc ns)

/-- One step of the `ignore_missing_items` loop: skip an out-of-range index,
otherwise move the record, counting successes. -/
def ignoreStep (now : Str) (acc : Nat × RegState) (idx : Nat) : Nat × RegState :=
  let (cnt, s) := acc
  if idx < s.1.length then
    let item := s.1.getD idx dfltMissingItem
    (cnt + 1, (s.1.eraseIdx idx, s.2 ++ [stampIgnored now item]))
  else (cnt, s)

/-- `ignore_missing_items` (lines 233-278): bulk ignore; indices are
processed in descending order; the result is `True` iff at least one record
was moved. -/
def ignore_missing_items (indices : List Nat) (now : Str) (s : RegState) :
    Bool × RegState :=
  if indices = [] then (false, s)
  else
    let r := (sortDesc indices).foldl (ignoreStep now) (0, s)
    (decide (0 < r.1), r.2)

/-! ## `recheck_missing_item` -/

/-- The reason string "No usable IDs available". -/
def reasonNoUsableIds : Str :=
  ['N', 'o', ' ', 'u', 's', 'a', 'b', 'l', 'e', ' ', 'I', 'D', 's', ' ',
   'a', 'v', 'a', 'i', 'l', 'a', 'b', 'l', 'e']

/-- The reason string "No matching IDs found in Emby library". -/
def reasonNoMatch : Str :=
  ['N', 'o', ' ', 'm', 'a', 't', 'c', 'h', 'i', 'n', 'g', ' ', 'I', 'D', 's',
   ' ', 'f', 'o', 'u', 'n', 'd', ' ', 'i', 'n', ' ', 'E', 'm', 'b', 'y', ' ',
   'l', 'i', 'b', 'r', 'a', 'r', 'y']

/-- The reason string "Found in Emby but collection doesn't exist". -/
def reasonFoundNoColl : Str :=
  ['F', 'o', 'u', 'n', 'd', ' ', 'i', 'n', ' ', 'E', 'm', 'b', 'y', ' ',
   'b', 'u', 't', ' ', 'c', 'o', 'l', 'l', 'e', 'c', 't', 'i', 'o', 'n', ' ',
   'd', 'o', 'e', 's', 'n', '\'', 't', ' ', 'e', 'x', 'i', 's', 't']

/-- The per-collection loop shared by both recheck branches (lines 318-331 /
354-367): find the collection by name and add the item; count successes. -/
def recheckCollLoop (findCollection : Str → Option Str)
    (addToCollection : Str → Str → Bool) (embyId : Str) :
    List CollInfo → Nat
  | [] => 0
  | c :: rest =>
    let tailCnt := recheckCollLoop findCollection addToCollection embyId rest
    match findCollection (c.name.getD []) with
    | some cid => (if addToCollection embyId cid then 1 else 0) + tailCnt
    | none => tailCnt

/-- `recheck_missing_item` (lines 280-384).  HTTP collaborators are oracles:
`itemStatus` is the status code of `GET /Items/{id}`, `findCollection` is
`find_collection_by_name`, `addToCollection` is
`add_movie_to_emby_collection`.  `fetchLib` feeds the no-manual-id search
path.  Returns the Python success flag and the new store / missing list. -/
def recheck_missing_item (itemStatus : Str → Int)
    (findCollection : Str → Option Str) (addToCollection : Str → Str → Bool)
    (fetchLib : Str → Option Str → List LibraryItem)
    (store : MappingStore) (missing : List MissingItem)
    (idx : Nat) (manual_emby_id : Option Str) (now : Str) :
    Bool × MappingStore × List MissingItem :=
  if h : idx < missing.length then
    let item := missing.getD idx dfltMissingItem
    let title := item.title
    let year := item.year
    let item_type := item.type
    let library_id := item.library_id.getD []
    let collection_name := item.collection_name.getD []
    let trakt_ids := item.trakt_ids.getD emptyPIds
    let cs0 := item.collections.getD []
    let collections :=
      if cs0 = [] ∧ collection_name ≠ ([] : Str) then
        [(⟨some collection_name, some library_id⟩ : CollInfo)]
      else cs0
    match manual_emby_id with
    | some mid =>
      if itemStatus mid = 200 then
        let store' :=
          if strTruthy trakt_ids.trakt then
            add_emby_id_mapping now (trakt_ids.trakt.getD []) mid item_type title store
          else store
        let cnt := recheckCollLoop findCollection addToCollection mid collections
        if 0 < cnt then (true, store', missing.eraseIdx idx)
        else (false, store', missing)
      else (false, store, missing)
    | none =>
      let sr :=
        if item_type = movieStr then
          search_movie_in_emby fetchLib store now title year item.trakt_ids (some library_id)
        else
          search_tv_show_in_emby fetchLib store now title year item.trakt_ids (some library_id)
      match sr.1 with
      | some embyId =>
        let cnt := recheckCollLoop findCollection addToCollection embyId collections
        if 0 < cnt then (true, sr.2, missing.eraseIdx idx)
        else
          (false, sr.2,
            missing.set idx { (missing.getD idx dfltMissingItem) with
              reason := reasonFoundNoColl })
      | none =>
        (false, sr.2,
          missing.set idx { (missing.getD idx dfltMissingItem) with last_checked := now })
  else (false, store, missing)

/-! ## `process_item` -/

/-- The `movie` / `show` payload of a Trakt list item. -/
structure Media where
  title : Str
  year : Option Int
  ids : PIds
deriving DecidableEq

def dfltMedia : Media := ⟨[], none, emptyPIds⟩

/-- One item of a Trakt list: `{"type": ..., "movie": {...}}` or
`{"type": ..., "show": {...}}`. -/
structure TraktItem where
  type : Str
  movie : Option Media
  showM : Option Media
deriving DecidableEq

/-- The value returned by a successful `process_item`:
`{"id": emby_id, "type": item.get("type")}`. -/
structure ResolveRes where
  id : Str
  type : Str
deriving DecidableEq

/-- A Python string-keyed dict of strings (the lookup tables), with
assignment-overwrites semantics. -/
abbrev StrDict := List (Str × Str)

def dictInsert (k v : Str) (d : StrDict) : StrDict :=
  (k, v) :: d.filter (fun p => p.1 ≠ k)

def dictLookup (k : Str) : StrDict → Option Str
  | [] => none
  | (k', v) :: rest => if k' = k then some v else dictLookup k rest

def ttPref : Str := ['t', 't']

/-- One step of the lookup-table build of `process_item` (lines 1340-1371):
IMDB id in both prefixed and unprefixed forms, TMDB id, TVDB id, and the
IMDB id found in the file path. -/
def tableStep (acc : StrDict × StrDict × StrDict × StrDict) (it : LibraryItem) :
    StrDict × StrDict × StrDict × StrDict :=
  let (iL, tL, vL, pL) := acc
  let e := stripChars (it.Imdb.getD [])
  let iL1 :=
    if e ≠ ([] : Str) then
      let iLa := dictInsert e it.Id iL
      if ¬ttPref.isPrefixOf e ∧ 5 < e.length then dictInsert (ttPref ++ e) it.Id iLa
      else if ttPref.isPrefixOf e then dictInsert (e.drop 2) it.Id iLa
      else iLa
    else iL
  let et := stripChars (it.Tmdb.getD [])
  let tL1 := if et ≠ ([] : Str) then dictInsert et it.Id tL else tL
  let ev := stripChars (it.Tvdb.getD [])
  let vL1 := if ev ≠ ([] : Str) then dictInsert ev it.Id vL else vL
  let p := it.Path.getD []
  let pL1 :=
    if p ≠ ([] : Str) then
      match extract_imdb_from_path p with
      | some pid => dictInsert pid it.Id pL
      | none => pL
    else pL
  (iL1, tL1, vL1, pL1)

def buildTables (items : List LibraryItem) : StrDict × StrDict × StrDict × StrDict :=
  items.foldl tableStep ([], [], [], [])

/-- The prefixed / unprefixed normalization of the entry's IMDB id
(lines 1373-1380): returns `(normalized_imdb_id, normalized_imdb_id_no_prefix)`. -/
def imdbForms (imdbId : Option Str) : Option Str × Option Str :=
  match imdbId with
  | some i =>
    if i ≠ ([] : Str) ∧ ttPref.isPrefixOf i then (some i, some (i.drop 2))
    else if i ≠ ([] : Str) then (some (ttPref ++ i), some i)
    else (some i, some i)
  | none => (none, none)

/-- A truthiness-guarded dict probe: `if key and key in table`. -/
def probe (key : Option Str) (d : StrDict) : Option Str :=
  match key with
  | some k => if k ≠ ([] : Str) then dictLookup k d else none
  | none => none

/-- Step 5 of `process_item` (lines 1410-1419): exact lowercase-name and
exact-year scan. -/
def nameYearScan (title : Str) (y : Int) : List LibraryItem → Option Str
  | [] => none
  | it :: rest =>
    if lowerStr it.Name = lowerStr title ∧ it.ProductionYear = some y then some it.Id
    else nameYearScan title y rest

/-- The ordered matching chain of `process_item` (lines 1382-1419): IMDB
metadata (both forms), IMDB in path, TMDB, TVDB (shows only), then the
exact name-and-year fallback. -/
def matchChain (itemTypeRaw : Str) (imdb_id tmdb_id tvdb_id : Option Str)
    (year : Option Int) (title : Str) (library_items : List LibraryItem) :
    Option Str :=
  let t := buildTables library_items
  let forms := imdbForms imdb_id
  let step14 :=
    match probe forms.1 t.1 with
    | some v => some v
    | none =>
      match probe forms.2 t.1 with
      | some v => some v
      | none =>
        match probe forms.1 t.2.2.2 with
        | some v => some v
        | none =>
          match probe tmdb_id t.2.1 with
          | some v => some v
          | none =>
            match (if itemTypeRaw = showStr then probe tvdb_id t.2.2.1 else none) with
            | some v => some v
            | none => none
  match step14 with
  | some v => some v
  | none =>
    match year with
    | some y => if y ≠ 0 then nameYearScan title y library_items else none
    | none => none

/-- The stored-mapping fast path of `process_item` (lines 1319-1325). -/
def procFastPath (store : MappingStore) (itemType : Str) (trakt_id : Option Str) :
    Option Str :=
  if strTruthy trakt_id then
    match get_emby_id_from_mapping store itemType (trakt_id.getD []) with
    | some e => if e ≠ ([] : Str) then some e else none
    | none => none
  else none

/-- The `media` selection at the top of `process_item`:
`item.get("movie", {})` or `item.get("show", {})` according to the type. -/
def entryMedia (item : TraktItem) : Media :=
  if item.type = movieStr then item.movie.getD dfltMedia else item.showM.getD dfltMedia

/-- The `item_type` string used for mapping keys in `process_item`. -/
def entryItemType (item : TraktItem) : Str :=
  if item.type = movieStr then movieStr else showStr

/-- The stripped Trakt id extracted by `process_item`
(`str(ids.get('trakt')).strip() if ids.get('trakt') else None`). -/
def entryTraktId (item : TraktItem) : Option Str :=
  if strTruthy (entryMedia item).ids.trakt then
    some (stripChars ((entryMedia item).ids.trakt.getD []))
  else none

/-- The library fetch of `process_item`:
`get_emby_library_items("Movie" | "Series", library_id)`. -/
def entryLibraryItems (fetchLib : Str → Option Str → List LibraryItem)
    (item : TraktItem) (library_id : Option Str) : List LibraryItem :=
  if item.type = movieStr then fetchLib movieKindStr library_id
  else fetchLib seriesKindStr library_id

/-- `process_item` (lines 1291-1434), with the library fetch abstracted as
`fetchLib` and the mapping store and registries threaded explicitly. -/
def process_item (fetchLib : Str → Option Str → List LibraryItem)
    (store : MappingStore) (s : RegState) (now : Str)
    (item : TraktItem) (library_id collection_name : Option Str) :
    Option ResolveRes × MappingStore × RegState :=
  let media := entryMedia item
  let title := media.title
  let year := media.year
  let ids := media.ids
  if ¬(strTruthy ids.imdb ∨ strTruthy ids.tmdb ∨ strTruthy ids.trakt) then
    let r := add_to_missing_items title year ids item.type collection_name library_id
      reasonNoUsableIds now s
    (none, store, r.2)
  else
    let imdb_id : Option Str :=
      if strTruthy ids.imdb then some (stripChars (ids.imdb.getD [])) else none
    let tmdb_id : Option Str :=
      if strTruthy ids.tmdb then some (stripChars (ids.tmdb.getD [])) else none
    let trakt_id : Option Str := entryTraktId item
    let tvdb_id : Option Str :=
      if strTruthy ids.tvdb then some (stripChars (ids.tvdb.getD [])) else none
    let item_type := entryItemType item
    match procFastPath store item_type trakt_id with
    | some e => (some ⟨e, item.type⟩, store, s)
    | none =>
      let library_items := entryLibraryItems fetchLib item library_id
      match matchChain item.type imdb_id tmdb_id tvdb_id year title library_items with
      | some e =>
        (some ⟨e, item.type⟩,
         writeMap store now (if strTruthy trakt_id then trakt_id else none) e item_type title,
         s)
      | none =>
        let r := add_to_missing_items title year ids item.type collection_name library_id
          reasonNoMatch now s
        (none, store, r.2)

/-! ## Collection creation (`create_collection_legacy_format`,
`create_emby_collection_with_movies`) -/

/-- Observable calls to the target system issued by the collection-creation
functions. -/
inductive EmbyCall where
  | findCol (name : Str)
  | postLegacy (name : Str) (ids : List Str)
  | postAltCreate (firstId : Str) (name : Str)
  | postAddItem (id : Str) (colId : Str)
deriving DecidableEq

/-- Response of the legacy creation POST: whether the status was in
`(200, 201, 204)` and the `Id` parsed from the body, if any. -/
structure LegacyResp where
  ok : Bool
  returnedId : Option Str
deriving DecidableEq

/-- `create_collection_legacy_format` (lines 792-835): empty id list returns
immediately; otherwise POST, use the returned id when present, else
re-search by name.  The second component lists the target-system calls
issued. -/
def create_collection_legacy_format (legacyResp : Str → List Str → LegacyResp)
    (findCol : Str → Option Str) (collection_name : Str) (movie_ids : List Str) :
    Option Str × List EmbyCall :=
  if movie_ids = [] then (none, [])
  else
    let r := legacyResp collection_name movie_ids
    if r.ok then
      match r.returnedId with
      | some cid =>
        if cid ≠ ([] : Str) then (some cid, [.postLegacy collection_name movie_ids])
        else
          match findCol collection_name with
          | some cid2 =>
            (some cid2, [.postLegacy collection_name movie_ids, .findCol collection_name])
          | none => (none, [.postLegacy collection_name movie_ids, .findCol collection_name])
      | none =>
        match findCol collection_name with
        | some cid2 =>
          (some cid2, [.postLegacy collection_name movie_ids, .findCol collection_name])
        | none => (none, [.postLegacy collection_name movie_ids, .findCol collection_name])
    else (none, [.postLegacy collection_name movie_ids])

/-- `create_emby_collection_with_movies` (lines 837-892): empty id list
returns immediately; otherwise reuse an existing collection found by name,
try the legacy creation, and fall back to creating with the first item and
adding the rest one at a time. -/
def create_emby_collection_with_movies (legacyResp : Str → List Str → LegacyResp)
    (findCol : Str → Option Str) (altCreateOk : Str → Str → Bool)
    (addOk : Str → Str → Bool) (collection_name : Str) (movie_ids : List Str) :
    Option Str × List EmbyCall :=
  if movie_ids = [] then (none, [])
  else
    match findCol collection_name with
    | some eid => (some eid, [.findCol collection_name])
    | none =>
      let leg := create_collection_legacy_format legacyResp findCol collection_name movie_ids
      match leg.1 with
      | some cid => (some cid, .findCol collection_name :: leg.2)
      | none =>
        match movie_ids with
        | [] => (none, .findCol collection_name :: leg.2)
        | first :: rest =>
          let trace0 := .findCol collection_name :: leg.2 ++ [EmbyCall.postAltCreate first collection_name]
          if altCreateOk first collection_name then
            match findCol collection_name with
            | some cid =>
              (some cid, trace0 ++ [.findCol collection_name] ++ rest.map (fun m => .postAddItem m cid))
            | none => (none, trace0 ++ [.findCol collection_name])
          else (none, trace0)

/-! ## Properties of the title normalizer -/

theorem toNat_ofNat_valid (n : Nat) (h : n.isValidChar) : (Char.ofNat n).toNat = n := by
  unfold Char.ofNat
  rw [dif_pos h]
  simp [Char.ofNatAux, Char.toNat, UInt32.ofNat', UInt32.toNat]

theorem charLower_charLower (c : Char) : charLower (charLower c) = charLower c := by
  unfold charLower
  by_cases h : 65 ≤ c.toNat ∧ c.toNat ≤ 90
  · rw [if_pos h]
    have hv : (c.toNat + 32).isValidChar := Or.inl (by omega)
    rw [if_neg]
    rw [toNat_ofNat_valid _ hv]
    omega
  · rw [if_neg h, if_neg h]

theorem map_eq_self_of_fix {f : Char → Char} {l : Str} (h : ∀ c ∈ l, f c = c) :
    l.map f = l := by
  induction l with
  | nil => rfl
  | cons c cs ih =>
    simp only [List.map_cons, List.cons.injEq]
    exact ⟨h c (by simp), ih fun d hd => h d (by simp [hd])⟩

theorem takeWhile_all {p : Char → Bool} {l : Str} (h : ∀ c ∈ l, p c = true) :
    l.takeWhile p = l ∧ l.dropWhile p = [] := by
  induction l with
  | nil => simp
  | cons c cs ih =>
    have hc := h c (by simp)
    have ih' := ih fun d hd => h d (by simp [hd])
    simp [List.takeWhile, List.dropWhile, hc, ih'.1, ih'.2]

theorem takeWhile_append_stop {p : Char → Bool} {w r : Str} {b : Char}
    (hw : ∀ c ∈ w, p c = true) (hb : p b = false) :
    (w ++ b :: r).takeWhile p = w ∧ (w ++ b :: r).dropWhile p = b :: r := by
  induction w with
  | nil => simp [List.takeWhile, List.dropWhile, hb]
  | cons c cs ih =>
    have hc := hw c (by simp)
    have ih' := ih fun d hd => hw d (by simp [hd])
    simp [List.takeWhile, List.dropWhile, hc, ih'.1, ih'.2]

theorem splitWs_words {s : Str} :
    ∀ w ∈ splitWs s, w ≠ [] ∧ ∀ c ∈ w, isSpaceChar c = false := by
  induction s using splitWs.induct with
  | case1 => simp [splitWs]
  | case2 c cs h ih =>
    intro w hw
    rw [splitWs, if_pos h] at hw
    exact ih w hw
  | case3 c cs h ih =>
    intro w hw
    rw [splitWs, if_neg h] at hw
    rcases List.mem_cons.mp hw with rfl | hw
    · refine ⟨by simp, ?_⟩
      intro d hd
      rcases List.mem_cons.mp hd with rfl | hd
      · simpa using h
      · have := List.mem_takeWhile_imp hd
        simpa using this
    · exact ih w hw

theorem splitWs_mem {s w : Str} {c : Char} (hw : w ∈ splitWs s) (hc : c ∈ w) :
    c ∈ s := by
  induction s using splitWs.induct with
  | case1 => simp [splitWs] at hw
  | case2 a cs h ih =>
    rw [splitWs, if_pos h] at hw
    exact List.mem_cons_of_mem a (ih hw)
  | case3 a cs h ih =>
    rw [splitWs, if_neg h] at hw
    rcases List.mem_cons.mp hw with rfl | hw
    · rcases List.mem_cons.mp hc with rfl | hc
      · simp
      · exact List.mem_cons_of_mem a ((cs.takeWhile_sublist _).mem hc)
    · exact List.mem_cons_of_mem a ((cs.dropWhile_sublist _).mem (ih hw))

theorem joinSp_mem {ws : List Str} {c : Char} (h : c ∈ joinSp ws) :
    c = ' ' ∨ ∃ w ∈ ws, c ∈ w := by
  induction ws with
  | nil => simp [joinSp] at h
  | cons w ws ih =>
    cases ws with
    | nil =>
      right
      exact ⟨w, by simp, by simpa [joinSp] using h⟩
    | cons v ws' =>
      rw [joinSp] at h
      rcases List.mem_append.mp h with h | h
      · right; exact ⟨w, by simp, h⟩
      · rcases List.mem_cons.mp h with rfl | h
        · left; rfl
        · rcases ih h with h | ⟨u, hu, hc⟩
          · left; exact h
          · right; exact ⟨u, by simp [List.mem_cons.mp hu], hc⟩

theorem splitWs_joinSp {ws : List Str}
    (h : ∀ w ∈ ws, w ≠ [] ∧ ∀ c ∈ w, isSpaceChar c = false) :
    splitWs (joinSp ws) = ws := by
  induction ws with
  | nil => simp [joinSp, splitWs]
  | cons w ws ih =>
    cases ws with
    | nil =>
      obtain ⟨hne, hns⟩ := h w (by simp)
      cases w with
      | nil => exact absurd rfl hne
      | cons c cs =>
        have hc : isSpaceChar c = false := hns c (by simp)
        have hall : ∀ d ∈ cs, (fun d => !isSpaceChar d) d = true := by
          intro d hd
          simp [hns d (by simp [hd])]
        rw [joinSp, splitWs, if_neg (by simp [hc]), (takeWhile_all hall).1,
          (takeWhile_all hall).2]
        simp [splitWs]
    | cons v ws' =>
      obtain ⟨hne, hns⟩ := h w (by simp)
      have hrest : ∀ u ∈ v :: ws', u ≠ [] ∧ ∀ c ∈ u, isSpaceChar c = false := by
        intro u hu
        exact h u (by simp [List.mem_cons.mp hu])
      cases w with
      | nil => exact absurd rfl hne
      | cons c cs =>
        have hc : isSpaceChar c = false := hns c (by simp)
        have hall : ∀ d ∈ cs, (fun d => !isSpaceChar d) d = true := by
          intro d hd
          simp [hns d (by simp [hd])]
        have hsp : (fun d => !isSpaceChar d) ' ' = false := by simp [isSpaceChar]
        have hj : joinSp ((c :: cs) :: v :: ws') = c :: (cs ++ ' ' :: joinSp (v :: ws')) := by
          rw [joinSp]; rfl
        rw [hj, splitWs, if_neg (by simp [hc]),
          (takeWhile_append_stop hall hsp).1, (takeWhile_append_stop hall hsp).2]
        rw [splitWs, if_pos (by simp [isSpaceChar])]
        rw [ih hrest]

theorem collapse_collapse (s : Str) : collapse (collapse s) = collapse s := by
  unfold collapse
  rw [splitWs_joinSp splitWs_words]

theorem collapse_mem {s : Str} {c : Char} (h : c ∈ collapse s) : c = ' ' ∨ c ∈ s := by
  rcases joinSp_mem h with h | ⟨w, hw, hc⟩
  · left; exact h
  · right; exact splitWs_mem hw hc


theorem subYear_mem {s : Str} {c : Char} (h : c ∈ subYear s) : c ∈ s := by
  induction s using subYear.induct with
  | case1 => simp [subYear] at h
  | case2 a cs rest heq ih =>
    rw [subYear, heq] at h
    exact (tryYear_sublist heq).mem (ih h)
  | case3 a cs heq ih =>
    rw [subYear, heq] at h
    rcases List.mem_cons.mp h with rfl | h
    · simp
    · exact List.mem_cons_of_mem a (ih h)

theorem mem_dropWhile {p : Char → Bool} {l : Str} {c : Char}
    (h : c ∈ l.dropWhile p) : c ∈ l :=
  (l.dropWhile_sublist p).mem h

theorem tryYear_none {s : Str} (h : ∀ c ∈ s, c ≠ '(') : tryYear s = none := by
  unfold tryYear
  split
  next a d1 d2 d3 d4 b r heq =>
    have hmem : a ∈ List.dropWhile isSpaceChar s := by
      rw [heq]; simp
    have ha : a ∈ s := mem_dropWhile hmem
    rw [if_neg]
    intro hcon
    exact h a ha hcon.1
  next => rfl

theorem subYear_eq_self {s : Str} (h : ∀ c ∈ s, c ≠ '(') : subYear s = s := by
  induction s with
  | nil => simp [subYear]
  | cons c cs ih =>
    have hcs := ih fun d hd => h d (by simp [hd])
    rw [subYear, tryYear_none h]
    show c :: subYear cs = c :: cs
    rw [hcs]

theorem tryArticle_mem {s r : Str} (h : tryArticle s = some r) : ∀ c ∈ r, c ∈ s := by
  intro c hc
  unfold tryArticle at h
  split at h
  · split at h
    · cases h
      have hx := mem_dropWhile hc
      simp [hx]
    · simp at h
  · split at h
    · cases h
      have hx := mem_dropWhile hc
      simp [hx]
    · split at h
      · split at h
        · cases h
          have hx := mem_dropWhile hc
          simp [hx]
        · simp at h
      · simp at h
  · simp at h

theorem stripArticle_mem {s : Str} {c : Char} (h : c ∈ stripArticle s) : c ∈ s := by
  unfold stripArticle at h
  split at h
  next r heq => exact tryArticle_mem heq c h
  next => exact h

theorem tryMarvels_mem {s r : Str} (h : tryMarvels s = some r) : ∀ c ∈ r, c ∈ s := by
  intro c hc
  unfold tryMarvels at h
  split at h
  · split at h
    · split at h
      · cases h
        have hx := mem_dropWhile hc
        simp [hx]
      · simp at h
    · split at h
      · cases h
        have hx := mem_dropWhile hc
        simp [hx]
      · simp at h
    · simp at h
  · simp at h

theorem stripMarvels_mem {s : Str} {c : Char} (h : c ∈ stripMarvels s) : c ∈ s := by
  unfold stripMarvels at h
  split at h
  next r heq => exact tryMarvels_mem heq c h
  next => exact h

/-- Every character of a normalized title is a word character or the single
space, and is fixed by lowercasing. -/
theorem normalize_title_chars {t : Str} {c : Char} (h : c ∈ normalize_title t) :
    (isWordChar c || isSpaceChar c) = true ∧ charLower c = c := by
  unfold normalize_title at h
  rcases collapse_mem h with rfl | h
  · constructor
    · simp [isSpaceChar]
    · decide
  · have h2 := stripMarvels_mem h
    have h3 := stripArticle_mem h2
    have h4 := List.mem_filter.mp h3
    refine ⟨h4.2, ?_⟩
    have h5 := subYear_mem h4.1
    obtain ⟨d, _, rfl⟩ := List.mem_map.mp h5
    exact charLower_charLower d

theorem subYear_nil : subYear [] = [] := by
  simp [subYear]

theorem subYear_some {c : Char} {cs rest : Str} (h : tryYear (c :: cs) = some rest) :
    subYear (c :: cs) = subYear rest := by
  rw [subYear]
  split
  next r heq =>
    rw [h] at heq
    cases heq
    rfl
  next heq =>
    rw [h] at heq
    cases heq

theorem subYear_none {c : Char} {cs : Str} (h : tryYear (c :: cs) = none) :
    subYear (c :: cs) = c :: subYear cs := by
  rw [subYear]
  split
  next r heq =>
    rw [h] at heq
    cases heq
  next => rfl

/-- C5 (amended): `normalize_title` is idempotent on every input whose
normalized form is not reducible again by the leading-article strip or the
brand-prefix strip.  (Totality and determinism are immediate: it is a Lean
function.) -/
theorem c5_normalize_title_conditional_idempotence (x : Str)
    (h1 : stripArticle (normalize_title x) = normalize_title x)
    (h2 : stripMarvels (normalize_title x) = normalize_title x) :
    normalize_title (normalize_title x) = normalize_title x := by
  have hlow : lowerStr (normalize_title x) = normalize_title x :=
    map_eq_self_of_fix fun c hc => (normalize_title_chars hc).2
  have hyear : subYear (normalize_title x) = normalize_title x := by
    refine subYear_eq_self fun c hc => ?_
    intro hparen
    subst hparen
    exact absurd (normalize_title_chars hc).1 (by decide)
  have hpunct : subPunct (normalize_title x) = normalize_title x := by
    unfold subPunct
    exact List.filter_eq_self.mpr fun c hc => (normalize_title_chars hc).1
  have hcoll : collapse (normalize_title x) = normalize_title x := by
    unfold normalize_title
    exact collapse_collapse _
  conv_lhs => rw [normalize_title]
  rw [hlow, hyear, hpunct, h1, h2, hcoll]

/-- The movie title "the a team" (as a character list). -/
def exTheATeam : Str := ['t', 'h', 'e', ' ', 'a', ' ', 't', 'e', 'a', 'm']

/-- C5 (counterexample): `normalize_title` is not idempotent on every input:
normalizing "the a team" gives "a team", and normalizing again strips the
(new) leading article, giving "team". -/
theorem c5_counterexample :
    normalize_title (normalize_title exTheATeam) ≠ normalize_title exTheATeam := by
  have e1 : normalize_title exTheATeam = ['a', ' ', 't', 'e', 'a', 'm'] := by
    simp +decide [normalize_title, exTheATeam, lowerStr, charLower, subYear, tryYear,
      subPunct, stripArticle, tryArticle, stripMarvels, tryMarvels, collapse, splitWs,
      joinSp, isSpaceChar, isWordChar, List.dropWhile, List.takeWhile, List.filter,
      Char.ofNat]
  have e2 : normalize_title ['a', ' ', 't', 'e', 'a', 'm'] = ['t', 'e', 'a', 'm'] := by
    simp +decide [normalize_title, lowerStr, charLower, subYear, tryYear,
      subPunct, stripArticle, tryArticle, stripMarvels, tryMarvels, collapse, splitWs,
      joinSp, isSpaceChar, isWordChar, List.dropWhile, List.takeWhile, List.filter,
      Char.ofNat]
  rw [e1, e2]
  decide

/-- The movie title "Inception (2010)" (as a character list). -/
def exInception : Str :=
  ['I', 'n', 'c', 'e', 'p', 't', 'i', 'o', 'n', ' ', '(', '2', '0', '1', '0', ')']

/-- C5 (witness): the conditional idempotence theorem applies to
"Inception (2010)", whose normalized form "inception" is stable. -/
theorem c5_witness :
    normalize_title (normalize_title exInception) = normalize_title exInception := by
  have e1 : normalize_title exInception
      = ['i', 'n', 'c', 'e', 'p', 't', 'i', 'o', 'n'] := by
    simp +decide [normalize_title, exInception, lowerStr, charLower, subYear_nil,
      subYear_some, subYear_none, tryYear,
      subPunct, stripArticle, tryArticle, stripMarvels, tryMarvels, collapse, splitWs,
      joinSp, isSpaceChar, isWordChar, List.dropWhile, List.takeWhile, List.filter,
      Char.ofNat]
  refine c5_normalize_title_conditional_idempotence exInception ?_ ?_
  · rw [e1]; decide
  · rw [e1]; decide

/-! ## Claim theorems: collection creation and registries -/

/-- C10: for every collection name and every behaviour of the target
system, `create_emby_collection_with_movies` (and the underlying
`create_collection_legacy_format`) called with an empty id list returns
`None` immediately and issues no target-system call at all — no search for
an existing collection, no creation, no membership request. -/
theorem c10_empty_ids_short_circuit :
    ∀ (legacyResp : Str → List Str → LegacyResp) (findCol : Str → Option Str)
      (altCreateOk addOk : Str → Str → Bool) (collection_name : Str),
      create_emby_collection_with_movies legacyResp findCol altCreateOk addOk
          collection_name [] = (none, []) ∧
      create_collection_legacy_format legacyResp findCol collection_name [] = (none, []) := by
  intro legacyResp findCol altCreateOk addOk collection_name
  exact ⟨rfl, rfl⟩

/-- C7: bulk-ignoring indices `[0, 2, 4]` of a five-record missing list
moves exactly the records originally at positions 0, 2 and 4 (stamped with
`ignored_on`) to the ignored list — in descending-index order — and leaves
the records originally at positions 1 and 3, reporting success. -/
theorem c7_bulk_ignore_exact :
    ∀ (a b c d e : MissingItem) (g : List MissingItem) (now : Str),
      ignore_missing_items [0, 2, 4] now ([a, b, c, d, e], g) =
        (true, ([b, d],
          g ++ [stampIgnored now e, stampIgnored now c, stampIgnored now a])) := by
  intro a b c d e g now
  simp [ignore_missing_items, sortDesc, insertDesc, ignoreStep, List.eraseIdx]

theorem getD_append_length (g : List MissingItem) (x d : MissingItem) :
    (g ++ [x]).getD g.length d = x := by
  induction g with
  | nil => rfl
  | cons a g ih => simp [List.getD]

theorem eraseIdx_append_length (g : List MissingItem) (x : MissingItem) :
    (g ++ [x]).eraseIdx g.length = g := by
  induction g with
  | nil => rfl
  | cons a g ih => simp [List.eraseIdx, ih]

/-- C8: ignoring the missing record at index `i` and then unignoring it
(it sits at the end of the ignored list, index `|g|`) puts the record back
into the missing list with `ignored_on` absent and `last_checked` refreshed,
and returns the ignored list to exactly its original contents. -/
theorem c8_ignore_unignore_round_trip :
    ∀ (m g : List MissingItem) (i : Nat) (now1 now2 : Str), i < m.length →
      (ignore_missing_item i now1 (m, g)).2
          = (m.eraseIdx i, g ++ [stampIgnored now1 (m.getD i dfltMissingItem)]) ∧
      (unignore_item g.length now2 (ignore_missing_item i now1 (m, g)).2).2
          = (m.eraseIdx i ++
              [{ m.getD i dfltMissingItem with ignored_on := none, last_checked := now2 }],
             g) := by
  intro m g i now1 now2 hi
  have h1 : (ignore_missing_item i now1 (m, g)).2
      = (m.eraseIdx i, g ++ [stampIgnored now1 (m.getD i dfltMissingItem)]) := by
    unfold ignore_missing_item
    rw [if_pos hi]
  refine ⟨h1, ?_⟩
  rw [h1]
  unfold unignore_item
  rw [if_pos (by simp)]
  rw [getD_append_length, eraseIdx_append_length]
  rfl

/-- C8 (witness): the round trip applied to a singleton missing list. -/
theorem c8_witness :
    (ignore_missing_item 0 ['t'] ([dfltMissingItem], [])).2
        = ([], [stampIgnored ['t'] dfltMissingItem]) ∧
      (unignore_item 0 ['u'] (ignore_missing_item 0 ['t'] ([dfltMissingItem], [])).2).2
        = ([{ dfltMissingItem with ignored_on := none, last_checked := ['u'] }], []) := by
  have h := c8_ignore_unignore_round_trip [dfltMissingItem] [] 0 ['t'] ['u'] (by simp)
  simpa using h

/-- C9: a recheck with a manually supplied target id whose verification
against the target system fails (a non-200 item lookup) reports failure and
leaves the mapping store and the whole missing list — in particular the
record and its `reason` field — exactly as they were. -/
theorem c9_recheck_invalid_manual_id :
    ∀ (itemStatus : Str → Int) (findCollection : Str → Option Str)
      (addToCollection : Str → Str → Bool)
      (fetchLib : Str → Option Str → List LibraryItem)
      (store : MappingStore) (missing : List MissingItem) (idx : Nat)
      (mid : Str) (now : Str),
      idx < missing.length → itemStatus mid ≠ 200 →
      recheck_missing_item itemStatus findCollection addToCollection fetchLib
          store missing idx (some mid) now
        = (false, store, missing) := by
  intro itemStatus findC addC fetchLib store missing idx mid now hidx hstat
  unfold recheck_missing_item
  rw [dif_pos hidx]
  simp [hstat]

/-- C9 (witness): a concrete invalid manual id (status 404) leaves a
one-record missing list untouched. -/
theorem c9_witness :
    recheck_missing_item (fun _ => 404) (fun _ => none) (fun _ _ => false)
        (fun _ _ => []) [] [dfltMissingItem] 0 (some ['x']) ['t']
      = (false, [], [dfltMissingItem]) :=
  c9_recheck_invalid_manual_id (fun _ => 404) (fun _ => none) (fun _ _ => false)
    (fun _ _ => []) [] [dfltMissingItem] 0 ['x'] ['t'] (by simp) (by decide)

/-! ## Claim theorems: matching -/

/-- Shared fast-path lemma for `process_item`: a stored-mapping hit is
returned as-is, for any library collaborator, leaving store and registries
unchanged. -/
theorem procItemFastPathEq
    (fetchLib : Str → Option Str → List LibraryItem) (store : MappingStore)
    (s : RegState) (now : Str) (item : TraktItem)
    (library_id collection_name : Option Str) (e : Str)
    (h1 : strTruthy (entryMedia item).ids.trakt = true)
    (h2 : procFastPath store (entryItemType item) (entryTraktId item) = some e) :
    process_item fetchLib store s now item library_id collection_name
      = (some ⟨e, item.type⟩, store, s) := by
  unfold process_item
  simp only [h1, h2]
  simp

/-- C3: when the entry's Trakt id already has a (truthy) record in the
mapping store for the entry's kind, resolution returns the stored target id
with the store and registries untouched, for every possible library
content — the library collaborator is never consulted.  Both `process_item`
and the fast path of `search_movie_in_emby` are covered. -/
theorem c3_mapping_store_fast_path :
    (∀ (fetchLib : Str → Option Str → List LibraryItem) (store : MappingStore)
       (s : RegState) (now : Str) (item : TraktItem)
       (library_id collection_name : Option Str) (e : Str),
      strTruthy (entryMedia item).ids.trakt = true →
      procFastPath store (entryItemType item) (entryTraktId item) = some e →
      process_item fetchLib store s now item library_id collection_name
        = (some ⟨e, item.type⟩, store, s)) ∧
    (∀ (fetchLib : Str → Option Str → List LibraryItem) (store : MappingStore)
       (now title : Str) (year : Option Int) (pids : PIds) (library_id : Option Str)
       (e : Str),
      searchFastPath store movieStr pids = some e →
      search_movie_in_emby fetchLib store now title year (some pids) library_id
        = (some e, store)) := by
  constructor
  · intro fetchLib store s now item library_id collection_name e h1 h2
    exact procItemFastPathEq fetchLib store s now item library_id collection_name e h1 h2
  · intro fetchLib store now title year pids library_id e h
    unfold search_movie_in_emby
    simp [h]

def exPids7 : PIds := ⟨none, none, some ['7'], none⟩

def exStore7 : MappingStore :=
  [(mappingKey movieStr ['7'], ⟨['e', '9'], movieStr, ['t'], ['d']⟩)]

def exItemMovie7 : TraktItem := ⟨movieStr, some ⟨['t'], none, exPids7⟩, none⟩

/-- C3 (witness): a stored mapping `movie_7 -> e9` is returned directly,
with an empty library collaborator. -/
theorem c3_witness :
    process_item (fun _ _ => []) exStore7 ([], []) ['n'] exItemMovie7 none none
        = (some ⟨['e', '9'], movieStr⟩, exStore7, ([], [])) ∧
      search_movie_in_emby (fun _ _ => []) exStore7 ['n'] ['t'] none (some exPids7) none
        = (some ['e', '9'], exStore7) := by
  constructor
  · exact c3_mapping_store_fast_path.1 (fun _ _ => []) exStore7 ([], []) ['n']
      exItemMovie7 none none ['e', '9'] (by decide) (by decide)
  · exact c3_mapping_store_fast_path.2 (fun _ _ => []) exStore7 ['n'] ['t'] none
      exPids7 none ['e', '9'] (by decide)

/-- C2: when the stored-mapping fast path and the IMDB step miss, and some
library item matches the entry's TMDB id exactly, `search_movie_in_emby`
returns that TMDB match — even when a (different) item would match the
fuzzy-title fallback with score >= 0.6; and in `process_item`'s ordered
chain a TMDB hit is returned before the name-and-year fallback is ever
consulted. -/
theorem c2_secondary_id_beats_fuzzy :
    (∀ (fetchLib : Str → Option Str → List LibraryItem) (store : MappingStore)
       (now title : Str) (year : Option Int) (pids : PIds) (library_id : Option Str)
       (a : Str) (b : LibraryItem),
      searchFastPath store movieStr pids = none →
      (if strTruthy pids.imdb then
          imdbScanSearch (pids.imdb.getD []) (fetchLib movieKindStr library_id)
        else none) = none →
      (if strTruthy pids.tmdb then
          tmdbScanSearch (pids.tmdb.getD []) (fetchLib movieKindStr library_id)
        else none) = some a →
      fuzzyResult title year (fetchLib movieKindStr library_id) = some b →
      (search_movie_in_emby fetchLib store now title year (some pids) library_id).1 = some a ∧
      (a ≠ b.Id →
        (search_movie_in_emby fetchLib store now title year (some pids) library_id).1
          ≠ some b.Id)) ∧
    (∀ (itemTypeRaw : Str) (imdb_id tmdb_id tvdb_id : Option Str) (year : Option Int)
       (title : Str) (items : List LibraryItem) (a : Str),
      probe (imdbForms imdb_id).1 (buildTables items).1 = none →
      probe (imdbForms imdb_id).2 (buildTables items).1 = none →
      probe (imdbForms imdb_id).1 (buildTables items).2.2.2 = none →
      probe tmdb_id (buildTables items).2.1 = some a →
      matchChain itemTypeRaw imdb_id tmdb_id tvdb_id year title items = some a) := by
  constructor
  · intro fetchLib store now title year pids library_id a b h0 h1 h2 _
    have hres : (search_movie_in_emby fetchLib store now title year (some pids) library_id).1
        = some a := by
      unfold search_movie_in_emby
      simp only [h0, h1, h2]
    refine ⟨hres, ?_⟩
    intro hne hcon
    rw [hres] at hcon
    exact hne (Option.some.inj hcon)
  · intro itemTypeRaw imdb_id tmdb_id tvdb_id year title items a h1 h2 h3 h4
    unfold matchChain
    simp only [h1, h2, h3, h4]

def exItemTmdb : LibraryItem :=
  ⟨['A'], ['z', 'z', 'z'], none, none, some ['6', '0', '3'], none, none⟩

def exItemFuzzy : LibraryItem :=
  ⟨['B'], ['d', 'u', 'n', 'e'], none, none, none, none, none⟩

def exPidsTmdb : PIds := ⟨none, some ['6', '0', '3'], none, none⟩

def exDuneTitle : Str := ['d', 'u', 'n', 'e']

/-- C2 (witness): a library with one exact-TMDB match ("zzz") and a
different exact-fuzzy-title match ("dune") resolves to the TMDB match. -/
theorem c2_witness :
    (search_movie_in_emby (fun _ _ => [exItemTmdb, exItemFuzzy]) [] ['n']
        exDuneTitle none (some exPidsTmdb) none).1 = some ['A'] ∧
      matchChain movieStr none (some ['6', '0', '3']) none none ['z']
        [exItemTmdb, exItemFuzzy] = some ['A'] := by
  have hfz : fuzzyResult exDuneTitle none [exItemTmdb, exItemFuzzy] = some exItemFuzzy := by
    simp +decide [fuzzyResult, fuzzyLoop, fuzzyUpdate, skipYear, strContains, exDuneTitle,
      exItemTmdb, exItemFuzzy, normalize_title, lowerStr, charLower, subYear_nil,
      subYear_some, subYear_none, tryYear, subPunct, stripArticle, tryArticle,
      stripMarvels, tryMarvels, collapse, splitWs, joinSp, isSpaceChar, isWordChar,
      List.dropWhile, List.takeWhile, List.filter, Char.ofNat]
    norm_num
  constructor
  · exact (c2_secondary_id_beats_fuzzy.1 (fun _ _ => [exItemTmdb, exItemFuzzy]) []
      ['n'] exDuneTitle none exPidsTmdb none ['A'] exItemFuzzy
      (by decide) (by decide) (by decide) hfz).1
  · exact c2_secondary_id_beats_fuzzy.2 movieStr none (some ['6', '0', '3']) none none
      ['z'] [exItemTmdb, exItemFuzzy] ['A']
      (by decide) (by decide) (by decide) (by decide)

theorem fuzzyUpdate_fst (nt : Str) (it : LibraryItem) (bm : Option LibraryItem) (bs : ℚ) :
    (fuzzyUpdate nt it bm bs).1 = bm ∨ (fuzzyUpdate nt it bm bs).1 = some it := by
  unfold fuzzyUpdate
  dsimp only
  split
  all_goals try split
  all_goals try split
  all_goals first | (left; rfl) | (right; rfl)

theorem fuzzyLoop_sources {nt : Str} {year : Option Int} :
    ∀ (items : List LibraryItem) (bm : Option LibraryItem) (bs : ℚ)
      (jt : LibraryItem) (sc : ℚ),
      fuzzyLoop nt year items bm bs = (some jt, sc) →
      bm = some jt ∨ (jt ∈ items ∧ skipYear year jt.ProductionYear = false) := by
  intro items
  induction items with
  | nil =>
    intro bm bs jt sc h
    rw [fuzzyLoop] at h
    cases h
    left
    rfl
  | cons it rest ih =>
    intro bm bs jt sc h
    rw [fuzzyLoop] at h
    by_cases hskip : skipYear year it.ProductionYear = true
    · rw [if_pos hskip] at h
      rcases ih _ _ _ _ h with h' | ⟨hmem, hok⟩
      · left; exact h'
      · right; exact ⟨List.mem_cons_of_mem _ hmem, hok⟩
    · rw [if_neg hskip] at h
      by_cases heq : nt = normalize_title it.Name
      · rw [if_pos heq] at h
        cases h
        right
        exact ⟨by simp, by simpa using hskip⟩
      · rw [if_neg heq] at h
        rcases ih _ _ _ _ h with h' | ⟨hmem, hok⟩
        · rcases fuzzyUpdate_fst nt it bm bs with hf | hf
          · rw [hf] at h'
            left
            exact h'
          · rw [hf] at h'
            have hit : it = jt := Option.some.inj h'
            subst hit
            right
            exact ⟨by simp, by simpa using hskip⟩
        · right
          exact ⟨List.mem_cons_of_mem _ hmem, hok⟩

/-- C1 (amended): for every entry carrying a nonzero year `Y` and every
library item carrying a nonzero production year `z`, the fuzzy-title
fallback (the final loop of `search_movie_in_emby` /
`search_tv_show_in_emby`, which both search functions call verbatim) never
returns that item when `|z − Y| > 1`, even at exact normalized-title
equality.  (The nonzero conditions are forced by Python truthiness: a year
of `0` disables the window guard, see the counterexample.) -/
theorem c1_year_window_exclusion :
    ∀ (title : Str) (Y : Int) (items : List LibraryItem) (it : LibraryItem) (z : Int),
      Y ≠ 0 → z ≠ 0 →
      fuzzyResult title (some Y) items = some it →
      it.ProductionYear = some z →
      (z - Y).natAbs ≤ 1 := by
  intro title Y items it z hY hz hres hpy
  unfold fuzzyResult at hres
  rcases hloop : fuzzyLoop (normalize_title title) (some Y) items none 0 with ⟨bm, bs⟩
  rw [hloop] at hres
  cases bm with
  | none => simp at hres
  | some jt =>
    dsimp only at hres
    have hjt : jt = it := by
      by_cases hge : bs ≥ 3/5
      · rw [if_pos hge] at hres
        exact Option.some.inj hres
      · rw [if_neg hge] at hres
        cases hres
    subst hjt
    rcases fuzzyLoop_sources items none 0 jt bs hloop with h | ⟨_, hok⟩
    · cases h
    · rw [hpy] at hok
      unfold skipYear at hok
      simp [hY, hz] at hok
      omega

def exItemDune1984 : LibraryItem :=
  ⟨['C'], ['D', 'u', 'n', 'e'], some 1984, none, none, none, none⟩

/-- C1 (counterexample): the claim as stated fails for an entry that
carries the year `0`: Python truthiness (`if year and item_year`) skips the
window guard, so entry "dune" (year 0) fuzzy-matches library item "Dune"
(1984) by exact title equality although `|1984 − 0| > 1`. -/
theorem c1_counterexample :
    fuzzyResult exDuneTitle (some 0) [exItemDune1984] = some exItemDune1984 ∧
      exItemDune1984.ProductionYear = some 1984 ∧ 1 < ((1984 : Int) - 0).natAbs := by
  refine ⟨?_, by decide, by decide⟩
  simp +decide [fuzzyResult, fuzzyLoop, fuzzyUpdate, skipYear, strContains, exDuneTitle,
    exItemDune1984, normalize_title, lowerStr, charLower, subYear_nil,
    subYear_some, subYear_none, tryYear, subPunct, stripArticle, tryArticle,
    stripMarvels, tryMarvels, collapse, splitWs, joinSp, isSpaceChar, isWordChar,
    List.dropWhile, List.takeWhile, List.filter, Char.ofNat]
  norm_num

def exItemDune2020 : LibraryItem :=
  ⟨['B'], ['D', 'u', 'n', 'e'], some 2020, none, none, none, none⟩

/-- C1 (witness): entry "dune" (2021) fuzzy-matches library item "Dune"
(2020), and the theorem bounds the year distance by 1. -/
theorem c1_witness :
    fuzzyResult exDuneTitle (some 2021) [exItemDune2020] = some exItemDune2020 ∧
      ((2020 : Int) - 2021).natAbs ≤ 1 := by
  have hres : fuzzyResult exDuneTitle (some 2021) [exItemDune2020] = some exItemDune2020 := by
    simp +decide [fuzzyResult, fuzzyLoop, fuzzyUpdate, skipYear, strContains, exDuneTitle,
      exItemDune2020, normalize_title, lowerStr, charLower, subYear_nil,
      subYear_some, subYear_none, tryYear, subPunct, stripArticle, tryArticle,
      stripMarvels, tryMarvels, collapse, splitWs, joinSp, isSpaceChar, isWordChar,
      List.dropWhile, List.takeWhile, List.filter, Char.ofNat]
    norm_num
  exact ⟨hres,
    c1_year_window_exclusion exDuneTitle 2021 [exItemDune2020] exItemDune2020 2020
      (by decide) (by decide) hres (by decide)⟩

theorem storeLookup_insert (k : Str) (v : MapRecord) (store : MappingStore) :
    storeLookup k (storeInsert k v store) = some v := by
  simp [storeInsert, storeLookup]

/-- C4 (amended): mapping-store writes of `process_item` are keyed by and
gated on the (stripped, truthy) Trakt id: (i) an entry without a usable
Trakt id never causes a store write, whatever the outcome; (ii) a fast-path
hit returns the pre-existing record and performs no write (the store is
returned unchanged, its `last_updated` not refreshed); (iii) a successful
match found by steps 1-5 with a usable Trakt id writes, before returning, a
record keyed `{kind}_{trakt}` holding the returned target id and a fresh
`last_updated`. -/
theorem c4_mapping_writes_gated :
    ∀ (fetchLib : Str → Option Str → List LibraryItem) (store : MappingStore)
      (s : RegState) (now : Str) (item : TraktItem)
      (library_id collection_name : Option Str),
      (strTruthy (entryTraktId item) = false →
        (process_item fetchLib store s now item library_id collection_name).2.1 = store) ∧
      (∀ e, strTruthy (entryMedia item).ids.trakt = true →
        procFastPath store (entryItemType item) (entryTraktId item) = some e →
        process_item fetchLib store s now item library_id collection_name
          = (some ⟨e, item.type⟩, store, s)) ∧
      (∀ res, (process_item fetchLib store s now item library_id collection_name).1
          = some res →
        strTruthy (entryTraktId item) = true →
        procFastPath store (entryItemType item) (entryTraktId item) = none →
        storeLookup (mappingKey (entryItemType item) ((entryTraktId item).getD []))
            (process_item fetchLib store s now item library_id collection_name).2.1
          = some ⟨res.id, entryItemType item, (entryMedia item).title, now⟩) := by
  intro fetchLib store s now item library_id collection_name
  refine ⟨?_, ?_, ?_⟩
  · intro hfalse
    have hfp : procFastPath store (entryItemType item) (entryTraktId item) = none := by
      unfold procFastPath
      rw [if_neg]
      simp [hfalse]
    unfold process_item
    simp only [hfp]
    split
    · rfl
    · split
      next e heq => simp [writeMap, hfalse]
      next => rfl
  · intro e h1 h2
    exact procItemFastPathEq fetchLib store s now item library_id collection_name e h1 h2
  · intro res hres htrue hfp
    have h1 : strTruthy (entryMedia item).ids.trakt = true := by
      by_cases hr : strTruthy (entryMedia item).ids.trakt = true
      · exact hr
      · exfalso
        unfold entryTraktId at htrue
        rw [if_neg hr] at htrue
        simp [strTruthy] at htrue
    unfold process_item at hres ⊢
    simp only [h1, hfp, or_true, not_true, if_false] at hres ⊢
    revert hres
    split
    next e heq =>
      intro hres
      have hr : res = ⟨e, item.type⟩ := (Option.some.inj hres).symm
      subst hr
      rcases he : entryTraktId item with _ | t
      · simp [he, strTruthy] at htrue
      · rw [he] at htrue
        simp [htrue, writeMap, add_emby_id_mapping, storeLookup_insert]
    next heq =>
      intro hres
      simp at hres

/-- C4 (counterexample): the claim as stated fails on the fast path: a
successful fast-path resolution returns with the mapping store completely
unchanged — no record is written, and the pre-existing record keeps its
stale `last_updated` (`['d']`, not the current time `['n']`). -/
theorem c4_counterexample :
    process_item (fun _ _ => []) exStore7 ([], []) ['n'] exItemMovie7 none none
        = (some ⟨['e', '9'], movieStr⟩, exStore7, ([], [])) ∧
      storeLookup (mappingKey movieStr ['7']) exStore7
        = some ⟨['e', '9'], movieStr, ['t'], ['d']⟩ ∧
      (['d'] : Str) ≠ ['n'] := by
  refine ⟨by decide, by decide, by decide⟩

def c4Item : TraktItem :=
  ⟨movieStr, some ⟨['t'], none, ⟨none, some ['6', '0', '3'], some ['7'], none⟩⟩, none⟩

/-- C4 (witness): a TMDB-step match with Trakt id `7` present writes a
fresh mapping record `movie_7` holding the matched target id before
returning. -/
theorem c4_witness :
    storeLookup (mappingKey (entryItemType c4Item) ((entryTraktId c4Item).getD []))
        (process_item (fun _ _ => [exItemTmdb]) [] ([], []) ['n'] c4Item none none).2.1
      = some ⟨(⟨['A'], movieStr⟩ : ResolveRes).id, entryItemType c4Item,
          (entryMedia c4Item).title, ['n']⟩ :=
  (c4_mapping_writes_gated (fun _ _ => [exItemTmdb]) [] ([], []) ['n'] c4Item
      none none).2.2 ⟨['A'], movieStr⟩ (by decide) (by decide) (by decide)

/-! ## Registry invariants (C6) -/

/-- The identity of an unresolved/ignored record: its Trakt id when truthy
(the identity used by all duplicate/suppression checks), else no identity. -/
def tid (m : MissingItem) : Option Str :=
  if strTruthy m.ids.trakt then m.ids.trakt else none

/-- All (truthy) identities across both registries, with multiplicity. -/
def regIds (s : RegState) : List Str :=
  (s.1 ++ s.2).filterMap tid

/-- Strengthened invariant: every truthy Trakt id identifies at most one
record across the union of both registries. -/
def UnionUniq (s : RegState) : Prop := (regIds s).Nodup

/-- The claim's cross-registry exclusivity: no truthy Trakt id identifies a
record in both registries simultaneously. -/
def Excl (s : RegState) : Prop :=
  ∀ t ∈ s.1.filterMap tid, t ∉ s.2.filterMap tid

/-- One application of a registry operation, with arbitrary arguments. -/
inductive RegStep : RegState → RegState → Prop where
  | add (s : RegState) (title : Str) (year : Option Int) (ids : PIds) (ty : Str)
      (cn lid : Option Str) (rsn now : Str) :
      RegStep s (add_to_missing_items title year ids ty cn lid rsn now s).2
  | ignoreOne (s : RegState) (i : Nat) (now : Str) :
      RegStep s (ignore_missing_item i now s).2
  | ignoreMany (s : RegState) (idxs : List Nat) (now : Str) :
      RegStep s (ignore_missing_items idxs now s).2
  | unignoreOne (s : RegState) (i : Nat) (now : Str) :
      RegStep s (unignore_item i now s).2

/-- States reachable by registry operations. -/
inductive RegReachable : RegState → RegState → Prop where
  | refl (s : RegState) : RegReachable s s
  | tail {s t u : RegState} : RegReachable s t → RegStep t u → RegReachable s u

theorem tid_stampIgnored (now : Str) (m : MissingItem) :
    tid (stampIgnored now m) = tid m := rfl

theorem tid_restoreItem (now : Str) (m : MissingItem) :
    tid (restoreItem now m) = tid m := rfl

theorem mergeColl_ids (cn lid : Option Str) (g : MissingItem) :
    (mergeColl cn lid g).ids = g.ids := by
  unfold mergeColl
  dsimp only
  split <;> rfl

theorem tid_mergeColl (cn lid : Option Str) (g : MissingItem) :
    tid (mergeColl cn lid g) = tid g := by
  unfold tid
  rw [mergeColl_ids]

theorem tid_mergeMissing (cn lid : Option Str) (now : Str) (m : MissingItem) :
    tid (mergeMissing cn lid now m) = tid m := by
  unfold mergeMissing tid
  rfl

theorem updFirst_filterMap_tid {p : MissingItem → Bool} {f : MissingItem → MissingItem}
    (hf : ∀ x, tid (f x) = tid x) :
    ∀ {l l' : List MissingItem}, updFirst p f l = some l' →
      l'.filterMap tid = l.filterMap tid := by
  intro l
  induction l with
  | nil => intro l' h; simp [updFirst] at h
  | cons x xs ih =>
    intro l' h
    rw [updFirst] at h
    split at h
    · cases h
      simp [List.filterMap_cons, hf x]
    · revert h
      split
      next ys hys =>
        intro h
        cases h
        simp [List.filterMap_cons, ih hys]
      next => intro h; cases h

theorem updFirst_none_all {p : MissingItem → Bool} {f : MissingItem → MissingItem} :
    ∀ {l : List MissingItem}, updFirst p f l = none → ∀ x ∈ l, p x = false := by
  intro l
  induction l with
  | nil => intro _ x hx; cases hx
  | cons y ys ih =>
    intro h x hx
    rw [updFirst] at h
    split at h
    · cases h
    · revert h
      split
      next => intro h; cases h
      next hnone =>
        intro _
        rcases List.mem_cons.mp hx with rfl | hx
        · by_cases hp : p x = true
          · simp [hp] at *
          · simpa using hp
        · exact ih hnone x hx

theorem updFirst_some_of_any {p : MissingItem → Bool} {f : MissingItem → MissingItem}
    {l : List MissingItem} (h : l.any p = true) : ∃ l', updFirst p f l = some l' := by
  induction l with
  | nil => simp at h
  | cons x xs ih =>
    rw [List.any_cons] at h
    rw [updFirst]
    by_cases hp : p x = true
    · exact ⟨f x :: xs, by rw [if_pos hp]⟩
    · have hxs : xs.any p = true := by
        rcases Bool.or_eq_true_iff.mp h with h' | h'
        · exact absurd h' hp
        · exact h'
      obtain ⟨ys, hys⟩ := ih hxs
      exact ⟨x :: ys, by rw [if_neg hp, hys]⟩

theorem updFirst_image {p : MissingItem → Bool} {f : MissingItem → MissingItem} :
    ∀ {l l' : List MissingItem}, updFirst p f l = some l' →
      ∃ x ∈ l, p x = true ∧ f x ∈ l' := by
  intro l
  induction l with
  | nil => intro l' h; simp [updFirst] at h
  | cons x xs ih =>
    intro l' h
    rw [updFirst] at h
    split at h
    next hp =>
      cases h
      exact ⟨x, by simp, hp, by simp⟩
    · revert h
      split
      next ys hys =>
        intro h
        cases h
        obtain ⟨z, hz, hpz, hfz⟩ := ih hys
        exact ⟨z, by simp [hz], hpz, by simp [hfz]⟩
      next => intro h; cases h

theorem getD_cons_eraseIdx_perm :
    ∀ (l : List MissingItem) (i : Nat), i < l.length →
      l.Perm (l.getD i dfltMissingItem :: l.eraseIdx i) := by
  intro l
  induction l with
  | nil => intro i h; simp at h
  | cons a l ih =>
    intro i h
    cases i with
    | zero => exact List.Perm.refl _
    | succ i =>
      have h' : i < l.length := by simpa using h
      have hstep := (ih i h').cons a
      refine hstep.trans ?_
      exact List.Perm.swap _ _ _

theorem filterMap_tid_cons (x : MissingItem) (l : List MissingItem) :
    (x :: l).filterMap tid = (tid x).toList ++ l.filterMap tid := by
  cases h : tid x <;> simp [List.filterMap_cons, h]

theorem filterMap_tid_singleton (x : MissingItem) :
    List.filterMap tid [x] = (tid x).toList := by
  cases h : tid x <;> simp [List.filterMap_cons, h]

theorem regIds_transfer (m g : List MissingItem) (i : Nat) (f : MissingItem → MissingItem)
    (hf : ∀ x, tid (f x) = tid x) (h : i < m.length) :
    ((m.eraseIdx i).filterMap tid ++ (g ++ [f (m.getD i dfltMissingItem)]).filterMap tid).Perm
      (m.filterMap tid ++ g.filterMap tid) := by
  have hperm : m.Perm (m.getD i dfltMissingItem :: m.eraseIdx i) :=
    getD_cons_eraseIdx_perm m i h
  have h1 : (m.filterMap tid).Perm
      ((tid (m.getD i dfltMissingItem)).toList ++ (m.eraseIdx i).filterMap tid) := by
    have := hperm.filterMap tid
    rwa [filterMap_tid_cons] at this
  have h2 : (g ++ [f (m.getD i dfltMissingItem)]).filterMap tid
      = g.filterMap tid ++ (tid (m.getD i dfltMissingItem)).toList := by
    rw [List.filterMap_append, filterMap_tid_singleton, hf]
  rw [h2]
  refine List.Perm.trans (List.Perm.append_left _ List.perm_append_comm) ?_
  rw [← List.append_assoc]
  refine List.Perm.trans (List.Perm.append_right _ List.perm_append_comm) ?_
  exact List.Perm.append_right _ h1.symm

theorem uniq_ignore (i : Nat) (now : Str) (s : RegState) (h : UnionUniq s) :
    UnionUniq (ignore_missing_item i now s).2 := by
  unfold ignore_missing_item
  split
  next hlt =>
    unfold UnionUniq regIds at h ⊢
    rw [List.filterMap_append] at h ⊢
    have hp := regIds_transfer s.1 s.2 i (stampIgnored now) (fun _ => rfl) hlt
    exact (hp.symm.nodup h)
  next => exact h

theorem uniq_unignore (i : Nat) (now : Str) (s : RegState) (h : UnionUniq s) :
    UnionUniq (unignore_item i now s).2 := by
  unfold unignore_item
  split
  next hlt =>
    unfold UnionUniq regIds at h ⊢
    rw [List.filterMap_append] at h ⊢
    have hp := regIds_transfer s.2 s.1 i (restoreItem now) (fun _ => rfl) hlt
    have hcomm1 : ((s.1 ++ [restoreItem now (s.2.getD i dfltMissingItem)]).filterMap tid
        ++ (s.2.eraseIdx i).filterMap tid).Perm
        ((s.2.eraseIdx i).filterMap tid
          ++ (s.1 ++ [restoreItem now (s.2.getD i dfltMissingItem)]).filterMap tid) :=
      List.perm_append_comm
    have hcomm2 : (s.2.filterMap tid ++ s.1.filterMap tid).Perm
        (s.1.filterMap tid ++ s.2.filterMap tid) := List.perm_append_comm
    exact ((hcomm1.trans hp).trans hcomm2).symm.nodup h
  next => exact h

theorem uniq_ignoreStep (now : Str) (acc : Nat × RegState) (i : Nat)
    (h : UnionUniq acc.2) : UnionUniq (ignoreStep now acc i).2 := by
  rcases acc with ⟨cnt, s⟩
  unfold ignoreStep
  dsimp only
  split
  next hlt =>
    unfold UnionUniq regIds at h ⊢
    rw [List.filterMap_append] at h ⊢
    have hp := regIds_transfer s.1 s.2 i (stampIgnored now) (fun _ => rfl) hlt
    exact (hp.symm.nodup h)
  next => exact h

theorem uniq_foldl (now : Str) :
    ∀ (idxs : List Nat) (acc : Nat × RegState), UnionUniq acc.2 →
      UnionUniq ((idxs.foldl (ignoreStep now) acc).2) := by
  intro idxs
  induction idxs with
  | nil => intro acc h; exact h
  | cons i rest ih =>
    intro acc h
    rw [List.foldl_cons]
    exact ih _ (uniq_ignoreStep now acc i h)

theorem uniq_ignoreMany (idxs : List Nat) (now : Str) (s : RegState)
    (h : UnionUniq s) : UnionUniq (ignore_missing_items idxs now s).2 := by
  unfold ignore_missing_items
  split
  · exact h
  · exact uniq_foldl now (sortDesc idxs) (0, s) h

theorem uniq_add (title : Str) (year : Option Int) (ids : PIds) (ty : Str)
    (cn lid : Option Str) (rsn now : Str) (s : RegState) (h : UnionUniq s) :
    UnionUniq (add_to_missing_items title year ids ty cn lid rsn now s).2 := by
  unfold add_to_missing_items
  dsimp only
  split
  next ignored' hig =>
    unfold UnionUniq regIds at h ⊢
    rw [List.filterMap_append] at h ⊢
    rw [updFirst_filterMap_tid (tid_mergeColl cn lid) hig]
    exact h
  next hig =>
    split
    next missing' hmiss =>
      unfold UnionUniq regIds at h ⊢
      rw [List.filterMap_append] at h ⊢
      rw [updFirst_filterMap_tid (tid_mergeMissing cn lid now) hmiss]
      exact h
    next hmiss =>
      unfold UnionUniq regIds at h ⊢
      dsimp only
      rw [List.filterMap_append] at h
      rw [List.filterMap_append, List.filterMap_append, filterMap_tid_singleton]
      rcases htn : tid
          ({ title := title, year := year, ids := ids, type := ty, reason := rsn,
             last_checked := now, collections := some [⟨cn, lid⟩],
             collection_name := none, library_id := none,
             ignored_on := none, trakt_ids := none } : MissingItem) with _ | t
      · simpa using h
      · have hids : strTruthy ids.trakt = true ∧ ids.trakt = some t := by
          unfold tid at htn
          revert htn
          split
          next hb => intro htn; exact ⟨hb, htn⟩
          next => intro htn; cases htn
        obtain ⟨hkb, hkt⟩ := hids
        have hnotig : t ∉ s.2.filterMap tid := by
          intro hmem
          obtain ⟨og, hog, hogt⟩ := List.mem_filterMap.mp hmem
          have hfalse := updFirst_none_all hig og hog
          unfold tidMatches at hfalse
          unfold tid at hogt
          revert hogt
          split
          next hb2 =>
            intro hogt
            rw [hb2, hogt, hkt] at hfalse
            simp at hfalse
          next => intro hogt; cases hogt
        have hnotmiss : t ∉ s.1.filterMap tid := by
          intro hmem
          obtain ⟨om, hom, homt⟩ := List.mem_filterMap.mp hmem
          have hfalse := updFirst_none_all hmiss om hom
          unfold tid at homt
          revert homt
          split
          next hb2 =>
            intro homt
            rw [hkb, hb2, homt, hkt] at hfalse
            simp at hfalse
          next => intro homt; cases homt
        rw [List.append_assoc, Option.toList_some, List.singleton_append,
          List.nodup_middle, List.nodup_cons]
        refine ⟨?_, h⟩
        intro hmem
        rcases List.mem_append.mp hmem with hm | hm
        · exact hnotmiss hm
        · exact hnotig hm

theorem excl_of_uniq (s : RegState) (h : UnionUniq s) : Excl s := by
  intro t ht1 ht2
  unfold UnionUniq regIds at h
  rw [List.filterMap_append, List.nodup_append] at h
  exact h.2.2 ht1 ht2

theorem mergeColl_has_name (cn lid : Option Str) (g : MissingItem) :
    ∃ c ∈ (mergeColl cn lid g).collections.getD [], c.name = cn := by
  unfold mergeColl
  dsimp only
  split
  next hany =>
    obtain ⟨c, hc, hcn⟩ := List.any_eq_true.mp hany
    exact ⟨c, by simpa using hc, by simpa using hcn⟩
  next =>
    exact ⟨⟨cn, lid⟩, by simp, rfl⟩

theorem tidMatches_mergeColl (t : Option Str) (cn lid : Option Str) (g : MissingItem) :
    tidMatches t (mergeColl cn lid g) = tidMatches t g := by
  unfold tidMatches
  rw [mergeColl_ids]

theorem add_suppression (title : Str) (year : Option Int) (ids : PIds) (ty : Str)
    (cn lid : Option Str) (rsn now : Str) (s : RegState)
    (h : s.2.any (tidMatches ids.trakt) = true) :
    (add_to_missing_items title year ids ty cn lid rsn now s).1 = false ∧
    (add_to_missing_items title year ids ty cn lid rsn now s).2.1 = s.1 ∧
    ∃ g' ∈ (add_to_missing_items title year ids ty cn lid rsn now s).2.2,
      tidMatches ids.trakt g' = true ∧ ∃ c ∈ g'.collections.getD [], c.name = cn := by
  obtain ⟨l', hl'⟩ :=
    @updFirst_some_of_any (tidMatches ids.trakt) (mergeColl cn lid) s.2 h
  obtain ⟨x, _, hpx, hfx⟩ := updFirst_image hl'
  unfold add_to_missing_items
  dsimp only
  rw [hl']
  refine ⟨rfl, rfl, mergeColl cn lid x, hfx, ?_, mergeColl_has_name cn lid x⟩
  rw [tidMatches_mergeColl]
  exact hpx

/-- C6 (amended): the cross-registry exclusivity invariant must be
strengthened to uniqueness of each truthy Trakt id across the union of both
registries (`UnionUniq`); that strengthened invariant is preserved by every
registry operation (`add_to_missing_items`, `ignore_missing_item`,
`ignore_missing_items`, `unignore_item`) from any state satisfying it, and
it implies the claimed exclusivity.  Moreover, in every reachable state, an
add whose identity is already present in the ignored registry is
suppressed: it reports `False`, leaves the missing registry unchanged, and
merges the collection name into an ignored record with that identity. -/
theorem c6_registry_exclusivity :
    ∀ (s0 s : RegState), UnionUniq s0 → RegReachable s0 s →
      UnionUniq s ∧ Excl s ∧
      (∀ (title : Str) (year : Option Int) (ids : PIds) (ty : Str)
         (cn lid : Option Str) (rsn now : Str),
        s.2.any (tidMatches ids.trakt) = true →
        (add_to_missing_items title year ids ty cn lid rsn now s).1 = false ∧
        (add_to_missing_items title year ids ty cn lid rsn now s).2.1 = s.1 ∧
        ∃ g' ∈ (add_to_missing_items title year ids ty cn lid rsn now s).2.2,
          tidMatches ids.trakt g' = true ∧
          ∃ c ∈ g'.collections.getD [], c.name = cn) := by
  intro s0 s h0 hreach
  have huniq : UnionUniq s := by
    induction hreach with
    | refl => exact h0
    | tail hr hstep ih =>
      cases hstep with
      | add title year ids ty cn lid rsn now =>
        exact uniq_add title year ids ty cn lid rsn now _ ih
      | ignoreOne i now => exact uniq_ignore i now _ ih
      | ignoreMany idxs now => exact uniq_ignoreMany idxs now _ ih
      | unignoreOne i now => exact uniq_unignore i now _ ih
  refine ⟨huniq, excl_of_uniq s huniq, ?_⟩
  intro title year ids ty cn lid rsn now hany
  exact add_suppression title year ids ty cn lid rsn now s hany

/-- A missing/ignored record with truthy Trakt id `"1"`. -/
def c6DupRec : MissingItem :=
  { dfltMissingItem with ids := ⟨none, none, some ['1'], none⟩ }

/-- C6 (counterexample): the claim as stated fails: the cross-registry
exclusivity alone is not preserved.  The state with two unresolved records
of the same identity and an empty ignored registry satisfies exclusivity,
yet one `ignore_missing_item` operation reaches a state where id `"1"` is
in both registries. -/
theorem c6_counterexample :
    Excl (([c6DupRec, c6DupRec], []) : RegState) ∧
      RegStep (([c6DupRec, c6DupRec], []) : RegState)
        (ignore_missing_item 0 ['n'] (([c6DupRec, c6DupRec], []) : RegState)).2 ∧
      ¬ Excl (ignore_missing_item 0 ['n'] (([c6DupRec, c6DupRec], []) : RegState)).2 := by
  refine ⟨?_, RegStep.ignoreOne _ 0 ['n'], ?_⟩
  · intro t ht1 ht2
    simp [tid, strTruthy] at ht2
  · intro hcon
    have h1 : (['1'] : Str) ∈ ((ignore_missing_item 0 ['n']
        (([c6DupRec, c6DupRec], []) : RegState)).2).1.filterMap tid := by decide
    have h2 : (['1'] : Str) ∈ ((ignore_missing_item 0 ['n']
        (([c6DupRec, c6DupRec], []) : RegState)).2).2.filterMap tid := by decide
    exact hcon ['1'] h1 h2

/-- C6 (witness): from the singleton-unresolved state (which satisfies the
strengthened invariant), the state reached by one ignore operation still
excludes every id from being in both registries. -/
theorem c6_witness :
    Excl (ignore_missing_item 0 ['n'] (([c6DupRec], []) : RegState)).2 :=
  (c6_registry_exclusivity ([c6DupRec], [])
    (ignore_missing_item 0 ['n'] (([c6DupRec], []) : RegState)).2
    (by simp [UnionUniq, regIds, tid, strTruthy, c6DupRec])
    (RegReachable.tail (RegReachable.refl _) (RegStep.ignoreOne _ 0 ['n']))).2.1
